import Mathlib

/-!
# Verification of the ESG analytics core

Shallow embedding of the repository's core logic: reduction-value
normalization, benchmark trajectory derivation and interpolation,
artifact-store reads with candidate fallback, peer medians, ambition
classification, gap severity aggregation, and the readiness poller's
cancellation behaviour.  Numbers are modelled as rationals; absent or
unparseable values as `none`.
-/

namespace Esg

/-! ## Reduction-value normalization

`asFrac` embeds the main page's normalizer (part_000):
`v ∈ [0,1]` is a fraction, `v ∈ (1,100]` a percentage divided by 100,
anything else (negative, above 100, unparseable) becomes `none`.
`frac` embeds the secondary panel's normalizer (part_005):
`n ≤ 1` is kept as-is and any `n > 1` is divided by 100. -/

def asFrac : Option ℚ → Option ℚ
  | none => none
  | some v =>
      if 0 ≤ v ∧ v ≤ 1 then some v
      else if 1 < v ∧ v ≤ 100 then some (v / 100)
      else none

def frac : Option ℚ → Option ℚ
  | none => none
  | some n => if n ≤ 1 then some n else some (n / 100)

/-! ## Benchmark trajectory derivation (part_000, `lineSeries`)

Fields of the company emissions profile, already parsed from the raw
record (`sf` in the source maps unparseable values to `null`, modelled
by `Option ℚ`).  `red` is the raw reduction value before fraction
normalization. -/

structure CompanyRaw where
  s1b : Option ℚ
  s2b : Option ℚ
  s12b : Option ℚ
  s1t : Option ℚ
  s2t : Option ℚ
  s12t : Option ℚ
  red : Option ℚ
deriving DecidableEq, Repr

/-- Source: `if (s12b == null && s1b != null && s2b != null) s12b = s1b + s2b`. -/
def stepCombinedBaseline (c : CompanyRaw) : CompanyRaw :=
  match c.s12b, c.s1b, c.s2b with
  | none, some a, some b => { c with s12b := some (a + b) }
  | _, _, _ => c

/-- Source: `const rf = redRaw > 1 ? redRaw / 100 : redRaw`. -/
def normFrac (r : ℚ) : ℚ := if 1 < r then r / 100 else r

/-- Source: `if (s12t == null && redRaw != null && s12b != null) s12t = s12b * (1 - rf)`. -/
def stepCombinedTarget (c : CompanyRaw) : CompanyRaw :=
  match c.s12t, c.red, c.s12b with
  | none, some r, some b => { c with s12t := some (b * (1 - normFrac r)) }
  | _, _, _ => c

/-- Source: `if (s12t != null && (s1t == null || s2t == null) && s1b != null && s2b != null && s1b + s2b > 0)`
then fill whichever of `s1t`, `s2t` is missing with the proportional share. -/
def stepSplitTargets (c : CompanyRaw) : CompanyRaw :=
  match c.s12t, c.s1b, c.s2b with
  | some t, some a, some b =>
      if (c.s1t = none ∨ c.s2t = none) ∧ 0 < a + b then
        { c with
          s1t := match c.s1t with
                 | none => some (t * (a / (a + b)))
                 | some x => some x
          s2t := match c.s2t with
                 | none => some (t * (b / (a + b)))
                 | some y => some y }
      else c
  | _, _, _ => c

/-- Source: `if (s12t == null && s1t != null && s2t != null) s12t = s1t + s2t`. -/
def stepSumTargets (c : CompanyRaw) : CompanyRaw :=
  match c.s12t, c.s1t, c.s2t with
  | none, some x, some y => { c with s12t := some (x + y) }
  | _, _, _ => c

/-- The complete derivation pipeline of `lineSeries` before interpolation. -/
def derive (c : CompanyRaw) : CompanyRaw :=
  stepSumTargets (stepSplitTargets (stepCombinedTarget (stepCombinedBaseline c)))

/-- The spec's running example: baselines 100 and 50, reduction value 42,
no combined baseline and no explicit targets. -/
def exampleCompany : CompanyRaw :=
  { s1b := some 100, s2b := some 50, s12b := none
    s1t := none, s2t := none, s12t := none, red := some 42 }

end Esg

namespace Esg

/-- C1: For the company record with baselines 100 and 50 and reduction value 42
and no explicit targets, the derivation computes combined baseline 150,
normalizes 42 to the fraction 0.42, derives combined target 150*(1-0.42)=87 and
splits it proportionally into Scope 1 target 58 and Scope 2 target 29; and each
derivation step fires only when its inputs are present and its output is still
missing (a present output is preserved, and a step with a missing input leaves
the record unchanged). -/
theorem claim_C1_trajectory_derivation :
    derive exampleCompany =
      { s1b := some 100, s2b := some 50, s12b := some 150
        s1t := some 58, s2t := some 29, s12t := some 87, red := some 42 }
    ∧ normFrac 42 = 42 / 100
    ∧ (∀ c : CompanyRaw, ∀ v, c.s12b = some v → (stepCombinedBaseline c).s12b = some v)
    ∧ (∀ c : CompanyRaw, c.s1b = none ∨ c.s2b = none → stepCombinedBaseline c = c)
    ∧ (∀ c : CompanyRaw, ∀ v, c.s12t = some v → (stepCombinedTarget c).s12t = some v)
    ∧ (∀ c : CompanyRaw, c.red = none ∨ c.s12b = none → stepCombinedTarget c = c)
    ∧ (∀ c : CompanyRaw, ∀ v, c.s1t = some v → (stepSplitTargets c).s1t = some v)
    ∧ (∀ c : CompanyRaw, ∀ v, c.s2t = some v → (stepSplitTargets c).s2t = some v)
    ∧ (∀ c : CompanyRaw, c.s12t = none ∨ c.s1b = none ∨ c.s2b = none →
        stepSplitTargets c = c)
    ∧ (∀ c : CompanyRaw, ∀ v, c.s12t = some v → (stepSumTargets c).s12t = some v)
    ∧ (∀ c : CompanyRaw, c.s1t = none ∨ c.s2t = none → stepSumTargets c = c) := by
  refine ⟨?_, ?_, ?_, ?_, ?_, ?_, ?_, ?_, ?_, ?_, ?_⟩
  · simp [derive, stepCombinedBaseline, stepCombinedTarget, stepSplitTargets,
      stepSumTargets, normFrac, exampleCompany]
    norm_num
  · norm_num [normFrac]
  · intro c v h
    simp only [stepCombinedBaseline]
    split <;> simp_all
  · intro c h
    simp only [stepCombinedBaseline]
    split <;> simp_all
  · intro c v h
    simp only [stepCombinedTarget]
    split <;> simp_all
  · intro c h
    simp only [stepCombinedTarget]
    split <;> simp_all
  · intro c v h
    simp only [stepSplitTargets]
    split
    · split <;> simp_all
    · exact h
  · intro c v h
    simp only [stepSplitTargets]
    split
    · split <;> simp_all
    · exact h
  · intro c h
    simp only [stepSplitTargets]
    split <;> simp_all
  · intro c v h
    simp only [stepSumTargets]
    split <;> simp_all
  · intro c h
    simp only [stepSumTargets]
    split <;> simp_all

/-- C1 witness: the combined-baseline step at a concrete record whose Scope 2
baseline is missing leaves the record unchanged. -/
theorem claim_C1_trajectory_derivation_witness :
    stepCombinedBaseline ⟨some 1, none, none, none, none, none, none⟩ =
      ⟨some 1, none, none, none, none, none, none⟩ :=
  claim_C1_trajectory_derivation.2.2.2.1
    ⟨some 1, none, none, none, none, none, none⟩ (Or.inr rfl)

end Esg

namespace Esg

/-- C5 counterexample: the claim says normalization maps a negative value, or a
value above 100, to "not available" (`none`) — but the secondary panel's
normalizer `frac` (part_005) keeps `-5` as `-5` and maps `200` to `2`. -/
theorem claim_C5_counterexample :
    frac (some (-5)) = some (-5) ∧ frac (some (-5)) ≠ none
    ∧ frac (some 200) = some 2 ∧ frac (some 200) ≠ none := by
  have h1 : frac (some (-5)) = some (-5) := by norm_num [frac]
  have h2 : frac (some 200) = some 2 := by norm_num [frac]
  exact ⟨h1, by rw [h1]; exact Option.some_ne_none _,
    h2, by rw [h2]; exact Option.some_ne_none _⟩

/-- C5 amended: the main page's normalizer `asFrac` follows the claimed rule
exactly — values in `[0,1]` are kept, values in `(1,100]` are divided by 100,
anything else becomes `none` — and it is idempotent with
`asFrac 50 = asFrac 0.5 = 0.5`; the secondary panel's `frac`, however, keeps
every value `≤ 1` (negatives included) as a fraction, divides every value
`> 1` (those above 100 included) by 100, and is not idempotent. -/
theorem claim_C5_normalization_amended :
    (∀ v : ℚ, 0 ≤ v → v ≤ 1 → asFrac (some v) = some v)
    ∧ (∀ v : ℚ, 1 < v → v ≤ 100 → asFrac (some v) = some (v / 100))
    ∧ (∀ v : ℚ, v < 0 ∨ 100 < v → asFrac (some v) = none)
    ∧ asFrac none = none
    ∧ (∀ x, asFrac (asFrac x) = asFrac x)
    ∧ asFrac (some 50) = some (1 / 2)
    ∧ asFrac (some (1 / 2)) = some (1 / 2)
    ∧ (∀ n : ℚ, n ≤ 1 → frac (some n) = some n)
    ∧ (∀ n : ℚ, 1 < n → frac (some n) = some (n / 100))
    ∧ frac (frac (some 200)) ≠ frac (some 200) := by
  refine ⟨?_, ?_, ?_, rfl, ?_, by norm_num [asFrac], by norm_num [asFrac],
    ?_, ?_, by norm_num [frac]⟩
  · intro v h0 h1
    simp [asFrac, h0, h1]
  · intro v h1 h100
    have : ¬(0 ≤ v ∧ v ≤ 1) := by rintro ⟨-, h⟩; linarith
    simp [asFrac, this, h1, h100]
  · intro v h
    rcases h with h | h
    · have h1 : ¬(0 ≤ v ∧ v ≤ 1) := by rintro ⟨h', -⟩; linarith
      have h2 : ¬(1 < v ∧ v ≤ 100) := by rintro ⟨h', -⟩; linarith
      simp [asFrac, h1, h2]
    · have h1 : ¬(0 ≤ v ∧ v ≤ 1) := by rintro ⟨-, h'⟩; linarith
      have h2 : ¬(1 < v ∧ v ≤ 100) := by rintro ⟨-, h'⟩; linarith
      simp [asFrac, h1, h2]
  · intro x
    cases x with
    | none => rfl
    | some v =>
      by_cases h1 : 0 ≤ v ∧ v ≤ 1
      · simp [asFrac, h1]
      · by_cases h2 : 1 < v ∧ v ≤ 100
        · have ha : 0 ≤ v / 100 ∧ v / 100 ≤ 1 := by
            constructor
            · have : (0 : ℚ) < v := by linarith [h2.1]
              positivity
            · rw [div_le_one (by norm_num)]
              linarith [h2.2]
          simp [asFrac, h1, h2, ha]
        · simp [asFrac, h1, h2]
  · intro n h
    simp [frac, h]
  · intro n h
    have : ¬n ≤ 1 := by linarith
    simp [frac, this]

/-- C5 witness: the amended characterization applied at concrete inputs
`0.3` (kept), `42` (divided by 100) and `-5` (dropped by `asFrac`,
kept by `frac`). -/
theorem claim_C5_normalization_amended_witness :
    asFrac (some (3 / 10)) = some (3 / 10)
    ∧ asFrac (some 42) = some (42 / 100)
    ∧ asFrac (some (-5)) = none
    ∧ frac (some (-5)) = some (-5) :=
  ⟨claim_C5_normalization_amended.1 (3 / 10) (by norm_num) (by norm_num),
   claim_C5_normalization_amended.2.1 42 (by norm_num) (by norm_num),
   claim_C5_normalization_amended.2.2.1 (-5) (Or.inl (by norm_num)),
   claim_C5_normalization_amended.2.2.2.2.2.2.2.1 (-5) (by norm_num)⟩

end Esg

namespace Esg

/-! ## Trajectory interpolation (part_000, `lineSeries`; part_005, `buildLinearSeries`)

The source builds the list of integer years from start to target inclusive
(`years[i] = sy + i`) and maps each year to the linearly interpolated value
`v0 + (v1 - v0) * t` with `t = i / (years.length - 1 || 1)`.  A scope whose
baseline or target is missing gets an empty point list, and a degenerate or
reversed year range (`ty ≤ sy`, or unparseable years) produces no series at
all. -/

structure SeriesPoint where
  x : ℤ
  y : ℚ
deriving DecidableEq, Repr

structure LSeries where
  sname : String
  points : List SeriesPoint
deriving DecidableEq, Repr

/-- Number of integer years from `sy` to `ty` inclusive. -/
def seriesLen (sy ty : ℤ) : ℕ := (ty - sy + 1).toNat

/-- Source: `years.length - 1 || 1`. -/
def interpDenom (n : ℕ) : ℚ := if n - 1 = 0 then 1 else ((n - 1 : ℕ) : ℚ)

/-- The point for the `i`-th year: `x = years[i] = sy + i`,
`y = v0 + (v1 - v0) * t` with `t = i / (years.length - 1 || 1)`. -/
def pointAt (sy ty : ℤ) (a b : ℚ) (i : ℕ) : SeriesPoint :=
  ⟨sy + (i : ℤ), a + (b - a) * (i : ℚ) / interpDenom (seriesLen sy ty)⟩

/-- Source: `make(name, v0, v1)` inside `lineSeries`. -/
def make (name : String) (sy ty : ℤ) (v0 v1 : Option ℚ) : LSeries :=
  match v0, v1 with
  | some a, some b => ⟨name, (List.range (seriesLen sy ty)).map (pointAt sy ty a b)⟩
  | _, _ => ⟨name, []⟩

/-- Source: `lineSeries` — guard on the year range, then one series per scope
from the derived baseline/target pairs. -/
def lineSeries (sy ty : ℤ) (c : CompanyRaw) : List LSeries :=
  if ty ≤ sy then []
  else
    [make "Scope 1" sy ty (derive c).s1b (derive c).s1t,
     make "Scope 2" sy ty (derive c).s2b (derive c).s2t,
     make "Scope 1+2" sy ty (derive c).s12b (derive c).s12t]

lemma seriesLen_eq (sy ty : ℤ) (h : sy < ty) :
    seriesLen sy ty = (ty - sy).toNat + 1 := by
  unfold seriesLen
  omega

lemma interpDenom_seriesLen (sy ty : ℤ) (h : sy < ty) :
    interpDenom (seriesLen sy ty) = ((ty - sy : ℤ) : ℚ) := by
  rw [seriesLen_eq sy ty h]
  unfold interpDenom
  have h0 : (ty - sy).toNat ≠ 0 := by omega
  have h1 : (((ty - sy).toNat : ℤ) : ℚ) = ((ty - sy : ℤ) : ℚ) := by
    congr 1
    omega
  simp only [Nat.add_sub_cancel, if_neg h0]
  exact_mod_cast h1

lemma make_points_getElem (name : String) (sy ty : ℤ) (a b : ℚ) (h : sy < ty)
    {i : ℕ} (hi : i < seriesLen sy ty) :
    (make name sy ty (some a) (some b)).points[i]? =
      some ⟨sy + (i : ℤ), a + (b - a) * (i : ℚ) / ((ty - sy : ℤ) : ℚ)⟩ := by
  simp only [make, List.getElem?_map, List.getElem?_range hi, Option.map_some]
  unfold pointAt
  rw [interpDenom_seriesLen sy ty h]
  rfl

lemma make_points_length (name : String) (sy ty : ℤ) (a b : ℚ) :
    (make name sy ty (some a) (some b)).points.length = seriesLen sy ty := by
  simp [make]

end Esg

namespace Esg

/-- C2: For a scope whose baseline and target both resolve, with start year
below target year, the series has exactly `ty - sy + 1` points, one per
consecutive year; the first point is the baseline at the start year, the last
is the target at the target year, the point for index `i` (year `sy + i`) has
value `baseline + (target - baseline) * i / (ty - sy)`, and the values are
monotone between the endpoints.  A missing baseline or target yields an empty
point list, and `ty ≤ sy` yields no series at all. -/
theorem claim_C2_series_shape :
    (∀ (name : String) (sy ty : ℤ) (a b : ℚ), sy < ty →
      (make name sy ty (some a) (some b)).points.length = (ty - sy + 1).toNat
      ∧ (make name sy ty (some a) (some b)).points.head? = some ⟨sy, a⟩
      ∧ (make name sy ty (some a) (some b)).points.getLast? = some ⟨ty, b⟩
      ∧ (∀ i : ℕ, i < (ty - sy + 1).toNat →
          (make name sy ty (some a) (some b)).points[i]? =
            some ⟨sy + (i : ℤ), a + (b - a) * (i : ℚ) / ((ty - sy : ℤ) : ℚ)⟩)
      ∧ (a ≤ b → ∀ i j : ℕ, ∀ p q : SeriesPoint, i ≤ j →
          (make name sy ty (some a) (some b)).points[i]? = some p →
          (make name sy ty (some a) (some b)).points[j]? = some q →
          p.y ≤ q.y)
      ∧ (b ≤ a → ∀ i j : ℕ, ∀ p q : SeriesPoint, i ≤ j →
          (make name sy ty (some a) (some b)).points[i]? = some p →
          (make name sy ty (some a) (some b)).points[j]? = some q →
          q.y ≤ p.y))
    ∧ (∀ (name : String) (sy ty : ℤ) (v : Option ℚ),
        make name sy ty none v = ⟨name, []⟩ ∧ make name sy ty v none = ⟨name, []⟩)
    ∧ (∀ (sy ty : ℤ) (c : CompanyRaw), ty ≤ sy → lineSeries sy ty c = [])
    ∧ (∀ (sy ty : ℤ) (c : CompanyRaw), sy < ty → lineSeries sy ty c =
        [make "Scope 1" sy ty (derive c).s1b (derive c).s1t,
         make "Scope 2" sy ty (derive c).s2b (derive c).s2t,
         make "Scope 1+2" sy ty (derive c).s12b (derive c).s12t]) := by
  have hK : ∀ sy ty : ℤ, sy < ty → (0 : ℚ) < ((ty - sy : ℤ) : ℚ) := by
    intro sy ty h
    exact_mod_cast (by omega : (0 : ℤ) < ty - sy)
  have bound : ∀ (name : String) (sy ty : ℤ) (a b : ℚ) (i : ℕ) (p : SeriesPoint),
      (make name sy ty (some a) (some b)).points[i]? = some p → i < seriesLen sy ty := by
    intro name sy ty a b i p hp
    by_contra hlt
    rw [List.getElem?_eq_none_iff.mpr (by rw [make_points_length]; omega)] at hp
    exact Option.noConfusion hp
  refine ⟨?_, ?_, ?_, ?_⟩
  · intro name sy ty a b h
    have hlen : seriesLen sy ty = (ty - sy + 1).toNat := rfl
    refine ⟨make_points_length name sy ty a b, ?_, ?_, ?_, ?_, ?_⟩
    · rw [List.head?_eq_getElem?, make_points_getElem name sy ty a b h
        (i := 0) (by unfold seriesLen; omega)]
      simp
    · rw [List.getLast?_eq_getElem?, make_points_length,
        make_points_getElem name sy ty a b h
          (i := seriesLen sy ty - 1) (by rw [seriesLen_eq sy ty h]; omega)]
      rw [seriesLen_eq sy ty h]
      simp only [Option.some.injEq, SeriesPoint.mk.injEq]
      have h1 : ((ty - sy).toNat + 1 - 1 : ℕ) = (ty - sy).toNat := by omega
      rw [h1]
      have hcast : (((ty - sy).toNat : ℕ) : ℚ) = ((ty - sy : ℤ) : ℚ) := by
        exact_mod_cast congrArg (fun z : ℤ => (z : ℚ))
          (Int.toNat_of_nonneg (by omega : (0 : ℤ) ≤ ty - sy))
      constructor
      · omega
      · rw [hcast, mul_div_assoc, div_self (hK sy ty h).ne']
        ring
    · intro i hi
      exact make_points_getElem name sy ty a b h hi
    · intro hab i j p q hij hp hq
      have hi := bound name sy ty a b i p hp
      have hj := bound name sy ty a b j q hq
      rw [make_points_getElem name sy ty a b h hi] at hp
      rw [make_points_getElem name sy ty a b h hj] at hq
      cases hp
      cases hq
      have hba : (0 : ℚ) ≤ b - a := sub_nonneg.mpr hab
      have hij' : (i : ℚ) ≤ (j : ℚ) := by exact_mod_cast hij
      have hmul : (b - a) * (i : ℚ) ≤ (b - a) * (j : ℚ) :=
        mul_le_mul_of_nonneg_left hij' hba
      exact add_le_add_left ((div_le_div_iff_of_pos_right (hK sy ty h)).mpr hmul) a
    · intro hba i j p q hij hp hq
      have hi := bound name sy ty a b i p hp
      have hj := bound name sy ty a b j q hq
      rw [make_points_getElem name sy ty a b h hi] at hp
      rw [make_points_getElem name sy ty a b h hj] at hq
      cases hp
      cases hq
      have hba' : b - a ≤ 0 := sub_nonpos.mpr hba
      have hij' : (i : ℚ) ≤ (j : ℚ) := by exact_mod_cast hij
      have hmul : (b - a) * (j : ℚ) ≤ (b - a) * (i : ℚ) :=
        mul_le_mul_of_nonpos_left hij' hba'
      exact add_le_add_left ((div_le_div_iff_of_pos_right (hK sy ty h)).mpr hmul) a
  · intro name sy ty v
    exact ⟨by cases v <;> rfl, by cases v <;> rfl⟩
  · intro sy ty c h
    simp [lineSeries, h]
  · intro sy ty c h
    simp only [lineSeries, if_neg (not_le.mpr h)]

/-- C2 witness: for start 2020, target 2030, baseline 150, target 87 the
series has 11 points and runs from the baseline point to the target point. -/
theorem claim_C2_series_shape_witness :
    (make "Scope 1+2" 2020 2030 (some 150) (some 87)).points.length = 11
    ∧ (make "Scope 1+2" 2020 2030 (some 150) (some 87)).points.head? =
        some ⟨2020, 150⟩
    ∧ (make "Scope 1+2" 2020 2030 (some 150) (some 87)).points.getLast? =
        some ⟨2030, 87⟩ := by
  have h := claim_C2_series_shape.1 "Scope 1+2" 2020 2030 150 87 (by norm_num)
  exact ⟨by rw [h.1]; decide, h.2.1, h.2.2.1⟩

end Esg

namespace Esg

/-! ## Artifact store gateway: candidate fallback

The benchmark and gap routes loop over candidate paths: return on the first
successful read, surface any non-404 error immediately, fall through to the
next candidate only on 404, and report not-found when every candidate 404s.
`ReadRes` is the outcome a candidate path would produce; the second component
of `readFirstOf` counts how many candidates were actually read. -/

inductive ReadRes where
  | ok (j : ℕ)
  | err (status : ℕ)
deriving DecidableEq, Repr

inductive RouteRes where
  | success (j : ℕ)
  | httpError (status : ℕ)
  | notFound
deriving DecidableEq, Repr

/-- Source: the `for (const path of candidates)` loop in
`benchmark/[pdfId]/route.ts` and `gap/[pdfId]/route.ts`. -/
def readFirstOf : List ReadRes → RouteRes × ℕ
  | [] => (.notFound, 0)
  | .ok j :: _ => (.success j, 1)
  | .err s :: rest =>
      if s = 404 then ((readFirstOf rest).1, (readFirstOf rest).2 + 1)
      else (.httpError s, 1)

lemma readFirstOf_cons_err404 (rest : List ReadRes) :
    readFirstOf (.err 404 :: rest) = ((readFirstOf rest).1, (readFirstOf rest).2 + 1) := by
  simp [readFirstOf]

lemma readFirstOf_cons_err {s : ℕ} (hs : s ≠ 404) (rest : List ReadRes) :
    readFirstOf (.err s :: rest) = (.httpError s, 1) := by
  simp [readFirstOf, hs]

lemma readFirstOf_count_le : ∀ l : List ReadRes, (readFirstOf l).2 ≤ l.length := by
  intro l
  induction l with
  | nil => simp [readFirstOf]
  | cons r rest ih =>
    cases r with
    | ok j => simp [readFirstOf]
    | err s =>
      by_cases hs : s = 404
      · subst hs
        rw [readFirstOf_cons_err404]
        simp only [List.length_cons]
        omega
      · rw [readFirstOf_cons_err hs]
        simp only [List.length_cons]
        omega

lemma readFirstOf_notFound_iff :
    ∀ l : List ReadRes, (readFirstOf l).1 = .notFound ↔ ∀ r ∈ l, r = .err 404 := by
  intro l
  induction l with
  | nil => simp [readFirstOf]
  | cons r rest ih =>
    cases r with
    | ok j => simp [readFirstOf]
    | err s =>
      by_cases hs : s = 404
      · subst hs
        rw [readFirstOf_cons_err404]
        simp only [List.mem_cons]
        rw [ih]
        constructor
        · intro h x hx
          rcases hx with hx | hx
          · exact hx ▸ rfl
          · exact h x hx
        · intro h x hx
          exact h x (Or.inr hx)
      · rw [readFirstOf_cons_err hs]
        simp only [List.mem_cons]
        constructor
        · intro h
          exact absurd h (by simp)
        · intro h
          have := h (.err s) (Or.inl rfl)
          simp at this
          exact absurd this hs

lemma readFirstOf_success :
    ∀ (l : List ReadRes) (i : ℕ) (j : ℕ), l[i]? = some (.ok j) →
      (∀ k < i, l[k]? = some (.err 404)) →
      (readFirstOf l).1 = .success j ∧ (readFirstOf l).2 = i + 1 := by
  intro l
  induction l with
  | nil => intro i j h _; simp at h
  | cons r rest ih =>
    intro i j h hk
    cases i with
    | zero =>
      rw [List.getElem?_cons_zero, Option.some_inj] at h
      subst h
      exact ⟨rfl, rfl⟩
    | succ n =>
      have h0 : r = .err 404 := by
        have := hk 0 (Nat.succ_pos n)
        rwa [List.getElem?_cons_zero, Option.some_inj] at this
      subst h0
      rw [List.getElem?_cons_succ] at h
      have hk' : ∀ k < n, rest[k]? = some (.err 404) := by
        intro k hkn
        have := hk (k + 1) (by omega)
        rwa [List.getElem?_cons_succ] at this
      have := ih n j h hk'
      rw [readFirstOf_cons_err404]
      exact ⟨this.1, by rw [this.2]⟩

lemma readFirstOf_error :
    ∀ (l : List ReadRes) (i : ℕ) (s : ℕ), s ≠ 404 → l[i]? = some (.err s) →
      (∀ k < i, l[k]? = some (.err 404)) →
      (readFirstOf l).1 = .httpError s ∧ (readFirstOf l).2 = i + 1 := by
  intro l
  induction l with
  | nil => intro i s _ h _; simp at h
  | cons r rest ih =>
    intro i s hs h hk
    cases i with
    | zero =>
      rw [List.getElem?_cons_zero, Option.some_inj] at h
      subst h
      rw [readFirstOf_cons_err hs]
      exact ⟨rfl, rfl⟩
    | succ n =>
      have h0 : r = .err 404 := by
        have := hk 0 (Nat.succ_pos n)
        rwa [List.getElem?_cons_zero, Option.some_inj] at this
      subst h0
      rw [List.getElem?_cons_succ] at h
      have hk' : ∀ k < n, rest[k]? = some (.err 404) := by
        intro k hkn
        have := hk (k + 1) (by omega)
        rwa [List.getElem?_cons_succ] at this
      have := ih n s hs h hk'
      rw [readFirstOf_cons_err404]
      exact ⟨this.1, by rw [this.2]⟩

/-- C3: the candidate lookup tries paths strictly in order: it returns the
first candidate that reads and parses successfully, reading exactly the
candidates up to and including it (never a later one); it reports not-found
exactly when every candidate 404s; and a non-404 error is surfaced immediately
without reading further candidates. -/
theorem claim_C3_read_first_of (cands : List ReadRes) :
    (readFirstOf cands).2 ≤ cands.length
    ∧ ((readFirstOf cands).1 = .notFound ↔ ∀ r ∈ cands, r = .err 404)
    ∧ (∀ i j, cands[i]? = some (.ok j) → (∀ k < i, cands[k]? = some (.err 404)) →
        (readFirstOf cands).1 = .success j ∧ (readFirstOf cands).2 = i + 1)
    ∧ (∀ i s, s ≠ 404 → cands[i]? = some (.err s) →
        (∀ k < i, cands[k]? = some (.err 404)) →
        (readFirstOf cands).1 = .httpError s ∧ (readFirstOf cands).2 = i + 1) :=
  ⟨readFirstOf_count_le cands, readFirstOf_notFound_iff cands,
   fun i j => readFirstOf_success cands i j,
   fun i s hs => readFirstOf_error cands i s hs⟩

/-- C3 witness: with candidate A returning 404, candidate B valid JSON and
candidate C a 500 error, the lookup returns B's content having read exactly
two candidates — C is never read. -/
theorem claim_C3_read_first_of_witness :
    (readFirstOf [.err 404, .ok 7, .err 500]).1 = .success 7
    ∧ (readFirstOf [.err 404, .ok 7, .err 500]).2 = 2 :=
  (claim_C3_read_first_of [.err 404, .ok 7, .err 500]).2.2.1 1 7 rfl
    (by
      intro k hk
      interval_cases k
      rfl)

end Esg

namespace Esg

/-! ## Artifact read: parse-failure handling

`StoreResp` is the store's response to one read request: an HTTP error
status, or a successful response carrying decoded content (modelled as an
abstract token).  `parse` abstracts `JSON.parse`, `none` meaning the content
does not parse. -/

inductive StoreResp where
  | httpErr (status : ℕ)
  | okPayload (content : ℕ)
deriving DecidableEq, Repr

inductive JsonReadRes where
  | okJson (j : ℕ)
  | fail (status : ℕ)
deriving DecidableEq, Repr

inductive ProxyRes where
  | okJson (j : ℕ)
  | okText (t : ℕ)
  | errorStatus (status : ℕ)
deriving DecidableEq, Repr

/-- Source: `dbfsReadJson` in `benchmark/[pdfId]/route.ts` — store errors are
passed through with their status; content that fails to parse becomes a
distinct 502 error. -/
def dbfsReadJson (parse : ℕ → Option ℕ) : StoreResp → JsonReadRes
  | .httpErr s => .fail s
  | .okPayload d =>
      match parse d with
      | some j => .okJson j
      | none => .fail 502

/-- Source: `dbfsRead` in `gap/[pdfId]/route.ts` — same shape, with 500 for a
parse failure. -/
def dbfsReadGap (parse : ℕ → Option ℕ) : StoreResp → JsonReadRes
  | .httpErr s => .fail s
  | .okPayload d =>
      match parse d with
      | some j => .okJson j
      | none => .fail 500

/-- Source: the generic `dbfs-read` proxy route (part_002) — a store error is
passed through, but a successfully read payload that fails JSON parsing is
returned as a successful text-kind result, not as an error. -/
def dbfsReadProxy (parse : ℕ → Option ℕ) : StoreResp → ProxyRes
  | .httpErr s => .errorStatus s
  | .okPayload d =>
      match parse d with
      | some j => .okJson j
      | none => .okText d

/-- C9 counterexample: the claim says a successfully-read artifact whose
content fails to parse yields a distinct malformed-artifact error in the read
operations it cites — but the cited `dbfs-read` proxy route returns a
successful text-kind result (no error at all, and in particular not a 404)
for exactly that input. -/
theorem claim_C9_counterexample :
    dbfsReadProxy (fun _ => none) (.okPayload 0) = .okText 0
    ∧ dbfsReadProxy (fun _ => none) (.okPayload 0) ≠ .errorStatus 404
    ∧ dbfsReadProxy (fun _ => none) (.okPayload 0) ≠ .errorStatus 502 := by
  refine ⟨rfl, ?_, ?_⟩ <;> simp [dbfsReadProxy]

/-- C9 amended: the per-artifact readers behave as claimed — a parse failure
after a successful read yields a distinct non-404 error (502 for the
benchmark reader, 500 for the gap reader), and the error outcome is 404
exactly when the store reported 404 — but the generic `dbfs-read` proxy
instead returns a successful text-kind result when the content is not JSON. -/
theorem claim_C9_malformed_artifact_amended :
    (∀ (parse : ℕ → Option ℕ) (d : ℕ), parse d = none →
        dbfsReadJson parse (.okPayload d) = .fail 502)
    ∧ (∀ (parse : ℕ → Option ℕ) (d j : ℕ), parse d = some j →
        dbfsReadJson parse (.okPayload d) = .okJson j)
    ∧ (∀ (parse : ℕ → Option ℕ) (r : StoreResp),
        dbfsReadJson parse r = .fail 404 ↔ r = .httpErr 404)
    ∧ (∀ (parse : ℕ → Option ℕ) (d : ℕ), parse d = none →
        dbfsReadGap parse (.okPayload d) = .fail 500)
    ∧ (∀ (parse : ℕ → Option ℕ) (r : StoreResp),
        dbfsReadGap parse r = .fail 404 ↔ r = .httpErr 404)
    ∧ (∀ (parse : ℕ → Option ℕ) (d : ℕ), parse d = none →
        dbfsReadProxy parse (.okPayload d) = .okText d) := by
  refine ⟨?_, ?_, ?_, ?_, ?_, ?_⟩
  · intro parse d h
    simp [dbfsReadJson, h]
  · intro parse d j h
    simp [dbfsReadJson, h]
  · intro parse r
    cases r with
    | httpErr s => simp [dbfsReadJson]
    | okPayload d =>
      cases hp : parse d <;> simp [dbfsReadJson, hp]
  · intro parse d h
    simp [dbfsReadGap, h]
  · intro parse r
    cases r with
    | httpErr s => simp [dbfsReadGap]
    | okPayload d =>
      cases hp : parse d <;> simp [dbfsReadGap, hp]
  · intro parse d h
    simp [dbfsReadProxy, h]

/-- C9 witness: the amended behaviour at a concrete unparseable payload and a
concrete 404 store response. -/
theorem claim_C9_malformed_artifact_amended_witness :
    dbfsReadJson (fun _ => none) (.okPayload 3) = .fail 502
    ∧ dbfsReadGap (fun _ => none) (.okPayload 3) = .fail 500
    ∧ dbfsReadJson (fun _ => none) (.httpErr 404) = .fail 404 :=
  ⟨claim_C9_malformed_artifact_amended.1 (fun _ => none) 3 rfl,
   claim_C9_malformed_artifact_amended.2.2.2.1 (fun _ => none) 3 rfl,
   (claim_C9_malformed_artifact_amended.2.2.1 (fun _ => none) (.httpErr 404)).mpr rfl⟩

end Esg

namespace Esg

/-! ## Peer statistics

`pctNum` is the main page's parser for a peer's raw reduction value
(part_000, `buildPeerDisplay`): values in `[0,1]` are fractions scaled to
percentages, values in `(1,100]` are already percentages, anything else is
unparseable.  `sortAsc` models `sort((a, b) => a - b)`.  `medianStd` is the
median of `buildPeerDisplay` (middle element for an odd count, average of the
two middle elements for an even count); `medianFloor` is the median of the
secondary panel's `normPeers` (part_005), which takes the sorted element at
index `⌊n / 2⌋` for every count. -/

def pctNum (x : Option ℚ) : Option ℚ :=
  match x with
  | none => none
  | some v =>
      if 0 ≤ v ∧ v ≤ 1 then some (v * 100)
      else if 1 < v ∧ v ≤ 100 then some v
      else none

/-- The successfully-parsed reduction percentages of a peer list. -/
def peerPcts (raw : List (Option ℚ)) : List ℚ := raw.filterMap pctNum

def insertAsc (x : ℚ) : List ℚ → List ℚ
  | [] => [x]
  | y :: ys => if x ≤ y then x :: y :: ys else y :: insertAsc x ys

def sortAsc : List ℚ → List ℚ
  | [] => []
  | x :: xs => insertAsc x (sortAsc xs)

/-- Source (part_000, `buildPeerDisplay`): odd count takes the middle sorted
element, even count averages the two middle sorted elements. -/
def medianStd (l : List ℚ) : Option ℚ :=
  let s := sortAsc l
  if s.length = 0 then none
  else if s.length % 2 = 1 then some (s.getD ((s.length - 1) / 2) 0)
  else some ((s.getD (s.length / 2 - 1) 0 + s.getD (s.length / 2) 0) / 2)

/-- Source (part_005, `normPeers`): `sorted[Math.floor(n / 2)]` for any
nonempty count. -/
def medianFloor (l : List ℚ) : Option ℚ :=
  if l.length = 0 then none
  else some ((sortAsc l).getD (l.length / 2) 0)

lemma insertAsc_length (x : ℚ) (l : List ℚ) :
    (insertAsc x l).length = l.length + 1 := by
  induction l with
  | nil => rfl
  | cons y ys ih =>
    by_cases h : x ≤ y
    · simp [insertAsc, h]
    · simp [insertAsc, h, ih]

lemma sortAsc_length (l : List ℚ) : (sortAsc l).length = l.length := by
  induction l with
  | nil => rfl
  | cons x xs ih => simp [sortAsc, insertAsc_length, ih]

/-- C6 counterexample: the claim says the peer-statistics median of
`[10, 20, 30, 40]` is 25, but the secondary panel's median (`normPeers`,
part_005) takes the upper-middle sorted element and yields 30. -/
theorem claim_C6_counterexample :
    medianFloor (peerPcts [some 10, some 20, some 30, some 40]) = some 30
    ∧ medianFloor (peerPcts [some 10, some 20, some 30, some 40]) ≠ some 25 := by
  have h : medianFloor (peerPcts [some 10, some 20, some 30, some 40]) = some 30 := by
    norm_num [medianFloor, peerPcts, pctNum, sortAsc, insertAsc, List.filterMap]
  exact ⟨h, by rw [h]; intro hc; rw [Option.some_inj] at hc; norm_num at hc⟩

/-- C6 amended: the main peer table's median (`buildPeerDisplay`) is the
standard even/odd-count median over the successfully-parsed percentages —
25 for `[10, 20, 30, 40]` and 20 for `[10, 20, 30]` — while the secondary
panel's median (`normPeers`) takes the sorted element at index `⌊n / 2⌋`,
giving 30 for `[10, 20, 30, 40]`; the two agree on every odd-count list. -/
theorem claim_C6_median_amended :
    medianStd (peerPcts [some 10, some 20, some 30, some 40]) = some 25
    ∧ medianStd (peerPcts [some 10, some 20, some 30]) = some 20
    ∧ medianFloor (peerPcts [some 10, some 20, some 30]) = some 20
    ∧ medianFloor (peerPcts [some 10, some 20, some 30, some 40]) = some 30
    ∧ (∀ l : List ℚ, l.length % 2 = 1 → medianFloor l = medianStd l) := by
  refine ⟨?_, ?_, ?_, ?_, ?_⟩
  · norm_num [medianStd, peerPcts, pctNum, sortAsc, insertAsc, List.filterMap]
  · norm_num [medianStd, peerPcts, pctNum, sortAsc, insertAsc, List.filterMap]
  · norm_num [medianFloor, peerPcts, pctNum, sortAsc, insertAsc, List.filterMap]
  · norm_num [medianFloor, peerPcts, pctNum, sortAsc, insertAsc, List.filterMap]
  · intro l hodd
    have hne : l.length ≠ 0 := by omega
    have hidx : l.length / 2 = (l.length - 1) / 2 := by omega
    simp only [medianFloor, medianStd, sortAsc_length]
    rw [if_neg hne, if_neg hne, if_pos hodd, hidx]

/-- C6 witness: on the odd-count list `[5]` the two medians agree. -/
theorem claim_C6_median_amended_witness :
    medianFloor [(5 : ℚ)] = medianStd [(5 : ℚ)] :=
  claim_C6_median_amended.2.2.2.2 [(5 : ℚ)] rfl

end Esg

namespace Esg

/-! ## Ambition classification (part_000, `insightText`)

The classifier compares the company's reduction fraction with the
peer-country and peer-region medians using tolerance `eps = 0.01`; a
comparison against a missing median is false. -/

inductive Ambition where
  | unclear
  | moreBoth
  | lessBoth
  | aboveCountryBelowRegion
  | aboveRegionBelowCountry
  | inLine
deriving DecidableEq, Repr

def ambEps : ℚ := 1 / 100

/-- Source: `aboveCountry = pcMedian !== null && companyFrac >= pcMedian + eps`
(and its region twin). -/
def aboveB (f : ℚ) : Option ℚ → Bool
  | some m => decide (m + ambEps ≤ f)
  | none => false

/-- Source: `belowCountry = pcMedian !== null && companyFrac <= pcMedian - eps`
(and its region twin). -/
def belowB (f : ℚ) : Option ℚ → Bool
  | some m => decide (f ≤ m - ambEps)
  | none => false

/-- Source: the `ambition` if-chain in `insightText`. -/
def ambitionClass (cf pc pr : Option ℚ) : Ambition :=
  match cf with
  | none => .unclear
  | some f =>
      if aboveB f pc && aboveB f pr then .moreBoth
      else if belowB f pc && belowB f pr then .lessBoth
      else if aboveB f pc && belowB f pr then .aboveCountryBelowRegion
      else if aboveB f pr && belowB f pc then .aboveRegionBelowCountry
      else .inLine

/-- The company value is at least the (present) median plus the tolerance. -/
def aboveMed (f : ℚ) (m : Option ℚ) : Prop := ∃ v, m = some v ∧ v + ambEps ≤ f

/-- The company value is at most the (present) median minus the tolerance. -/
def belowMed (f : ℚ) (m : Option ℚ) : Prop := ∃ v, m = some v ∧ f ≤ v - ambEps

lemma aboveB_iff (f : ℚ) (m : Option ℚ) : aboveB f m = true ↔ aboveMed f m := by
  cases m <;> simp [aboveB, aboveMed]

lemma belowB_iff (f : ℚ) (m : Option ℚ) : belowB f m = true ↔ belowMed f m := by
  cases m <;> simp [belowB, belowMed]

lemma not_above_and_below (f : ℚ) (m : Option ℚ) :
    aboveMed f m → belowMed f m → False := by
  rintro ⟨v, hv, ha⟩ ⟨w, hw, hb⟩
  rw [hv, Option.some_inj] at hw
  subst hw
  rw [ambEps] at ha hb
  linarith

end Esg

namespace Esg

/-- C7: the classification assigns every input exactly one of six outcomes
with tolerance 0.01: "unclear" exactly when the company value is missing;
"more ambitious than both" exactly when the company value is at least each
median plus the tolerance (both medians being present); "less ambitious than
both" exactly when it is at most each median minus the tolerance; the two
mixed outcomes exactly when it is above the one and below the other; and
"roughly in line" in all remaining cases. -/
theorem claim_C7_ambition_classification (cf pc pr : Option ℚ) :
    (ambitionClass cf pc pr = .unclear ↔ cf = none)
    ∧ (∀ f : ℚ, cf = some f →
        ((ambitionClass cf pc pr = .moreBoth ↔ aboveMed f pc ∧ aboveMed f pr)
        ∧ (ambitionClass cf pc pr = .lessBoth ↔ belowMed f pc ∧ belowMed f pr)
        ∧ (ambitionClass cf pc pr = .aboveCountryBelowRegion ↔
            aboveMed f pc ∧ belowMed f pr)
        ∧ (ambitionClass cf pc pr = .aboveRegionBelowCountry ↔
            aboveMed f pr ∧ belowMed f pc)
        ∧ (ambitionClass cf pc pr = .inLine ↔
            ¬(aboveMed f pc ∧ aboveMed f pr) ∧ ¬(belowMed f pc ∧ belowMed f pr)
            ∧ ¬(aboveMed f pc ∧ belowMed f pr)
            ∧ ¬(aboveMed f pr ∧ belowMed f pc)))) := by
  constructor
  · cases cf with
    | none => simp [ambitionClass]
    | some f =>
      simp only [ambitionClass]
      split_ifs <;> simp
  · intro f hcf
    subst hcf
    simp only [ambitionClass]
    split_ifs with h1 h2 h3 h4
    · rw [Bool.and_eq_true, aboveB_iff, aboveB_iff] at h1
      refine ⟨iff_of_true rfl h1, ?_, ?_, ?_, ?_⟩
      · exact iff_of_false (by simp)
          (fun hb => not_above_and_below f pc h1.1 hb.1)
      · exact iff_of_false (by simp)
          (fun hb => not_above_and_below f pr h1.2 hb.2)
      · exact iff_of_false (by simp)
          (fun hb => not_above_and_below f pc h1.1 hb.2)
      · exact iff_of_false (by simp) (fun hb => hb.1 h1)
    · rw [Bool.and_eq_true, aboveB_iff, aboveB_iff] at h1
      rw [Bool.and_eq_true, belowB_iff, belowB_iff] at h2
      refine ⟨?_, iff_of_true rfl h2, ?_, ?_, ?_⟩
      · exact iff_of_false (by simp)
          (fun ha => not_above_and_below f pc ha.1 h2.1)
      · exact iff_of_false (by simp)
          (fun ha => not_above_and_below f pc ha.1 h2.1)
      · exact iff_of_false (by simp)
          (fun ha => not_above_and_below f pr ha.1 h2.2)
      · exact iff_of_false (by simp) (fun hb => hb.2.1 h2)
    · rw [Bool.and_eq_true, aboveB_iff, aboveB_iff] at h1
      rw [Bool.and_eq_true, belowB_iff, belowB_iff] at h2
      rw [Bool.and_eq_true, aboveB_iff, belowB_iff] at h3
      refine ⟨?_, ?_, iff_of_true rfl h3, ?_, ?_⟩
      · exact iff_of_false (by simp)
          (fun ha => not_above_and_below f pr ha.2 h3.2)
      · exact iff_of_false (by simp)
          (fun hb => not_above_and_below f pc h3.1 hb.1)
      · exact iff_of_false (by simp)
          (fun hb => not_above_and_below f pr hb.1 h3.2)
      · exact iff_of_false (by simp) (fun hb => hb.2.2.1 h3)
    · rw [Bool.and_eq_true, aboveB_iff, aboveB_iff] at h1
      rw [Bool.and_eq_true, belowB_iff, belowB_iff] at h2
      rw [Bool.and_eq_true, aboveB_iff, belowB_iff] at h3
      rw [Bool.and_eq_true, aboveB_iff, belowB_iff] at h4
      refine ⟨?_, ?_, ?_, iff_of_true rfl h4, ?_⟩
      · exact iff_of_false (by simp)
          (fun ha => not_above_and_below f pc ha.1 h4.2)
      · exact iff_of_false (by simp)
          (fun hb => not_above_and_below f pr h4.1 hb.2)
      · exact iff_of_false (by simp)
          (fun hb => not_above_and_below f pc hb.1 h4.2)
      · exact iff_of_false (by simp) (fun hb => hb.2.2.2 h4)
    · rw [Bool.and_eq_true, aboveB_iff, aboveB_iff] at h1
      rw [Bool.and_eq_true, belowB_iff, belowB_iff] at h2
      rw [Bool.and_eq_true, aboveB_iff, belowB_iff] at h3
      rw [Bool.and_eq_true, aboveB_iff, belowB_iff] at h4
      refine ⟨iff_of_false (by simp) h1, iff_of_false (by simp) h2,
        iff_of_false (by simp) h3, iff_of_false (by simp) h4,
        iff_of_true rfl ⟨h1, h2, h3, h4⟩⟩

/-- C7 witness: a missing company value classifies as "unclear", and a
company at 50% against medians at 10% and 20% classifies as "more ambitious
than both". -/
theorem claim_C7_ambition_classification_witness :
    ambitionClass none (some (1 / 10)) (some (2 / 10)) = .unclear
    ∧ ambitionClass (some (1 / 2)) (some (1 / 10)) (some (2 / 10)) = .moreBoth :=
  ⟨(claim_C7_ambition_classification none (some (1 / 10)) (some (2 / 10))).1.mpr rfl,
   ((claim_C7_ambition_classification (some (1 / 2)) (some (1 / 10))
      (some (2 / 10))).2 (1 / 2) rfl).1.mpr
     ⟨⟨1 / 10, rfl, by norm_num [ambEps]⟩, ⟨2 / 10, rfl, by norm_num [ambEps]⟩⟩⟩

end Esg

namespace Esg

/-! ## Gap severity aggregation (part_000)

A finding carries a framework question code and a severity that may be
absent or outside the defined range.  The overall distribution
(`severityCounts`) counts a finding only when its severity is exactly one of
0–3; the displayed percentages divide by `totalRecords = gapData.length`,
the number of ALL findings.  The per-category breakdown (`griGroups`)
buckets every finding under its category with `severity ?? 3`.  The
category label is produced by a regex on the code; the statements below
hold for every category assignment `cat`, hence for the source's regex. -/

structure GapFinding where
  fcode : String
  severity : Option ℤ
deriving DecidableEq, Repr

/-- Source: `severityCounts` — one bucket per defined severity value. -/
def severityCount (g : List GapFinding) (s : ℤ) : ℕ :=
  (g.filter (fun r => r.severity = some s)).length

/-- A finding whose severity is one of the four defined values. -/
def sevKnown (r : GapFinding) : Bool :=
  decide (r.severity = some 0 ∨ r.severity = some 1
    ∨ r.severity = some 2 ∨ r.severity = some 3)

/-- Source: `totalRecords = gapData.length` and
`(missing / totalRecords) * 100`. -/
def overviewPct (g : List GapFinding) (s : ℤ) : ℚ :=
  (severityCount g s : ℚ) / (g.length : ℚ) * 100

/-- Modelled from the spec: the percentage the claim describes, whose
denominator is the number of findings with severity in 0–3 only. -/
def specClaimPct (g : List GapFinding) (s : ℤ) : ℚ :=
  (severityCount g s : ℚ) / ((g.filter sevKnown).length : ℚ) * 100

/-- Source: `const sev = r.severity ?? 3` in `griGroups`. -/
def catSeverity (r : GapFinding) : ℤ := r.severity.getD 3

/-- Number of findings in category `label` (all severity buckets of the
category combined). -/
def griCount (cat : GapFinding → String) (g : List GapFinding)
    (label : String) : ℕ :=
  (g.filter (fun r => cat r = label)).length

/-- Number of findings in category `label` bucketed under severity `s`
(with the `?? 3` default applied). -/
def griSevCount (cat : GapFinding → String) (g : List GapFinding)
    (label : String) (s : ℤ) : ℕ :=
  (g.filter (fun r => cat r = label ∧ catSeverity r = s)).length

/-- Sum of the overall distribution's four buckets. -/
def overallSum (g : List GapFinding) : ℕ :=
  severityCount g 0 + severityCount g 1 + severityCount g 2 + severityCount g 3

/-- Sum of the per-category counts over all categories present in `g`. -/
def griSum (cat : GapFinding → String) (g : List GapFinding) : ℕ :=
  (((g.map cat).dedup).map (fun l => griCount cat g l)).sum

lemma griCount_eq_count (cat : GapFinding → String) (g : List GapFinding)
    (l : String) : griCount cat g l = (g.map cat).count l := by
  unfold griCount
  rw [List.count, List.countP_map, ← List.countP_eq_length_filter]
  rfl

lemma griSum_eq_length (cat : GapFinding → String) (g : List GapFinding) :
    griSum cat g = g.length := by
  unfold griSum
  simp only [griCount_eq_count]
  rw [List.sum_map_count_dedup_eq_length, List.length_map]

lemma overallSum_eq (g : List GapFinding) :
    overallSum g = (g.filter sevKnown).length := by
  induction g with
  | nil => rfl
  | cons r rest ih =>
    simp only [overallSum, severityCount, List.filter_cons] at *
    rcases hr : r.severity with _ | v
    · simp only [hr, sevKnown]
      simp [ih]
    · by_cases h0 : v = 0
      · subst h0; simp only [hr, sevKnown]; simp [ih]; omega
      · by_cases h1 : v = 1
        · subst h1; simp only [hr, sevKnown]; simp [ih]; omega
        · by_cases h2 : v = 2
          · subst h2; simp only [hr, sevKnown]; simp [ih]; omega
          · by_cases h3 : v = 3
            · subst h3; simp only [hr, sevKnown]; simp [ih]; omega
            · simp only [hr, sevKnown]
              simp [ih, h0, h1, h2, h3]

end Esg

namespace Esg

/-- Two findings, one with the undefined severity 7: the overall percentage
for severity 3 divides by all findings (2), not by the defined ones (1). -/
def gapTwo : List GapFinding := [⟨"a", some 3⟩, ⟨"b", some 7⟩]

/-- The spec's ten-finding example: six missing, four fully aligned. -/
def gapTen : List GapFinding :=
  [⟨"a", some 3⟩, ⟨"b", some 3⟩, ⟨"c", some 3⟩, ⟨"d", some 3⟩, ⟨"e", some 3⟩,
   ⟨"f", some 3⟩, ⟨"g", some 0⟩, ⟨"h", some 0⟩, ⟨"i", some 0⟩, ⟨"j", some 0⟩]

/-- C8 counterexample: with one severity-3 finding and one severity-7
finding, the displayed percentage for severity 3 is 50 — the code divides by
the total number of findings — whereas the claim's denominator (findings
with severity in 0–3) would give 100. -/
theorem claim_C8_counterexample :
    overviewPct gapTwo 3 = 50 ∧ specClaimPct gapTwo 3 = 100
    ∧ overviewPct gapTwo 3 ≠ specClaimPct gapTwo 3 := by
  have h1 : overviewPct gapTwo 3 = 50 := by
    norm_num [overviewPct, severityCount, gapTwo, List.filter]
  have h2 : specClaimPct gapTwo 3 = 100 := by
    norm_num [specClaimPct, severityCount, sevKnown, gapTwo, List.filter]
  exact ⟨h1, h2, by rw [h1, h2]; norm_num⟩

/-- C8 amended: each displayed severity percentage equals
`count(severity = s) / (number of ALL findings) * 100`; this coincides with
the claim's defined-severity denominator exactly on lists where every
severity is one of 0–3, e.g. the ten-finding example (60% missing, 40%
aligned). -/
theorem claim_C8_percentages_amended :
    (∀ g : List GapFinding, (∀ r ∈ g, sevKnown r = true) →
        ∀ s : ℤ, overviewPct g s = specClaimPct g s)
    ∧ overviewPct gapTen 3 = 60 ∧ overviewPct gapTen 0 = 40 := by
  refine ⟨?_, ?_, ?_⟩
  · intro g hall s
    unfold overviewPct specClaimPct
    rw [List.filter_eq_self.mpr hall]
  · norm_num [overviewPct, severityCount, gapTen, List.filter]
  · norm_num [overviewPct, severityCount, gapTen, List.filter]

/-- C8 witness: the amended equality applied to a singleton list with a
defined severity. -/
theorem claim_C8_percentages_amended_witness :
    overviewPct [⟨"a", some 0⟩] 0 = specClaimPct [⟨"a", some 0⟩] 0 :=
  claim_C8_percentages_amended.1 [⟨"a", some 0⟩] (by decide) 0

/-- C10: a finding with an absent severity is bucketed under severity 3 for
its category (the `?? 3` default), is counted in no bucket of the overall
distribution, and consequently the per-category counts sum to strictly more
than the overall distribution's buckets — for any category assignment,
hence for the source's regex-derived one. -/
theorem claim_C10_absent_severity (cat : GapFinding → String)
    (g : List GapFinding) (r : GapFinding) (hr : r ∈ g)
    (hnone : r.severity = none) :
    0 < griSevCount cat g (cat r) 3
    ∧ sevKnown r = false
    ∧ overallSum g < griSum cat g := by
  refine ⟨?_, ?_, ?_⟩
  · apply List.length_pos.mpr
    apply List.ne_nil_of_mem (a := r)
    rw [List.mem_filter]
    exact ⟨hr, by simp [catSeverity, hnone]⟩
  · simp [sevKnown, hnone]
  · rw [overallSum_eq, griSum_eq_length]
    have hsplit := List.length_eq_length_filter_add (l := g) sevKnown
    have hpos : 0 < (g.filter (fun a => !(sevKnown a))).length := by
      apply List.length_pos.mpr
      apply List.ne_nil_of_mem (a := r)
      rw [List.mem_filter]
      exact ⟨hr, by simp [sevKnown, hnone]⟩
    omega

/-- C10 witness: a single finding with no severity — its category's
severity-3 bucket holds it while the overall distribution is empty. -/
theorem claim_C10_absent_severity_witness :
    0 < griSevCount (fun _ => "Other") [⟨"x", none⟩] "Other" 3
    ∧ sevKnown ⟨"x", none⟩ = false
    ∧ overallSum [⟨"x", none⟩] < griSum (fun _ => "Other") [⟨"x", none⟩] :=
  claim_C10_absent_severity (fun _ => "Other") [⟨"x", none⟩] ⟨"x", none⟩
    (List.mem_singleton.mpr rfl) rfl

end Esg

namespace Esg

/-! ## Readiness poller cancellation (part_000)

The poll effect keeps a `cancelled` flag and a pending timer; its cleanup
(run when the DocumentId changes or is cleared) sets the flag and clears the
timer.  `tick` checks the flag before issuing a fetch and again before
scheduling the next cycle — but the state updates live inside `doFetchAll`,
which applies the fetched payload without consulting the flag.  The machine
below embeds exactly that: `applyFetchResult` is `doFetchAll`'s success
path, and `pollStep .complete` applies it unconditionally, using the owning
effect's flag only to decide whether to reschedule. -/

structure FetchPayload where
  readyAll : Bool
  summary : Option ℕ
  benchmark : Option ℕ
  gap : Option ℕ
deriving DecidableEq, Repr

structure PollState where
  pdfId : Option ℕ
  summaryRow : Option ℕ
  bench : Option ℕ
  gapData : Option ℕ
  allReady : Bool
  fetching : Bool
deriving DecidableEq, Repr

/-- Source: `doFetchAll` once the response arrives — on `ready.all` set the
three artifacts and `allReady := true`, otherwise `allReady := false`;
`fetching` is reset in the `finally`.  No cancellation check. -/
def applyFetchResult (s : PollState) (p : FetchPayload) : PollState :=
  if p.readyAll then
    { s with summaryRow := p.summary, bench := p.benchmark, gapData := p.gap,
             allReady := true, fetching := false }
  else { s with allReady := false, fetching := false }

/-- `inflight` records the id a pending fetch was issued for and whether its
owning effect has since been cancelled. -/
structure PollMachine where
  st : PollState
  cancelled : Bool
  timerPending : Bool
  inflight : Option (ℕ × Bool)
deriving DecidableEq, Repr

inductive PollEv where
  | mount (id : ℕ)
  | changeDoc (newId : Option ℕ)
  | complete (p : FetchPayload)
deriving DecidableEq, Repr

/-- Source: the `useEffect` poll loop.  `mount` is the effect starting for a
new id and issuing its first fetch; `changeDoc` is the cleanup plus id
change (flag set, timer cleared, the in-flight call's owner marked
cancelled); `complete` is the in-flight fetch resolving — the payload is
applied unconditionally, and the flag only suppresses rescheduling. -/
def pollStep (m : PollMachine) (e : PollEv) : PollMachine :=
  match e with
  | .mount id =>
      { st := { m.st with pdfId := some id, fetching := true }
        cancelled := false
        timerPending := m.timerPending
        inflight := some (id, false) }
  | .changeDoc newId =>
      { st := { m.st with pdfId := newId }
        cancelled := true
        timerPending := false
        inflight := m.inflight.map (fun i => (i.1, true)) }
  | .complete p =>
      match m.inflight with
      | none => m
      | some (_, ownerCancelled) =>
          { st := applyFetchResult m.st p
            cancelled := m.cancelled
            timerPending :=
              if ownerCancelled then m.timerPending
              else (!(applyFetchResult m.st p).allReady) || m.timerPending
            inflight := none }

def pollInit : PollMachine :=
  { st := { pdfId := none, summaryRow := none, bench := none, gapData := none,
            allReady := false, fetching := false }
    cancelled := false
    timerPending := false
    inflight := none }

def pollRun (es : List PollEv) : PollMachine := es.foldl pollStep pollInit

/-- C4: clearing the DocumentId does cancel the pending scheduled cycle
(second conjunct), but the result of the fetch that was in flight for the
stale id is still applied when it arrives: after mounting id 1, clearing the
id, and then receiving the in-flight all-ready payload, the current state
holds the stale artifacts and `allReady = true` — the code's `doFetchAll`
applies its updates without consulting the effect's `cancelled` flag,
contradicting the claimed (and spec-required) discard of stale results. -/
theorem claim_C4_stale_result_applied :
    (pollRun [.mount 1, .changeDoc none,
        .complete ⟨true, some 7, some 8, some 9⟩]).st =
      { pdfId := none, summaryRow := some 7, bench := some 8,
        gapData := some 9, allReady := true, fetching := false }
    ∧ (pollRun [.mount 1, .changeDoc none]).timerPending = false
    ∧ (pollRun [.mount 1, .changeDoc none]).st.pdfId = none := by
  refine ⟨rfl, rfl, rfl⟩

end Esg
